import Mathlib

/-!
Verification of the HearditFirst feed-to-document pipeline.

The repository consists of three Python scripts (news_generator.py,
tech_generator.py, gaming_generator.py) that fetch RSS items, normalize
them, ask an LLM for a prose summary, convert that summary to HTML and
splice it into static pages, maintaining dated archive pages and an
archive index.

Documents are embedded as `List Char` (Python `str`).  Python string
primitives used by the scripts (`str.find`, `str.rfind`, slicing with
negative indices, `str.split`, `str.strip`, `str.count`, `str.lower`,
`email.utils.parsedate_to_datetime`, `datetime.strptime`/`strftime`,
stable `list.sort`) are modelled below; each mutation function of the
scripts is then translated statement by statement.  File writes are
modelled by the functions returning the new document text; a Python
`raise` before the write is modelled by `Except.error`, so an `error`
result means the on-disk content is left untouched (in every script the
whole-file write happens only after the new content is fully computed).
-/

/-- First index at which `sub` occurs in `s` (`str.find` with start 0),
`none` when there is no occurrence. -/
def findIdx (sub : List Char) : List Char → Option Nat
  | [] => if sub.isPrefixOf ([] : List Char) then some 0 else none
  | c :: t =>
      if sub.isPrefixOf (c :: t) then some 0
      else (findIdx sub t).map (· + 1)

/-- Last index at which `sub` occurs in `s` (`str.rfind`), `none` when
there is no occurrence. -/
def rfindIdx (sub : List Char) : List Char → Option Nat
  | [] => if sub.isPrefixOf ([] : List Char) then some 0 else none
  | c :: t =>
      match (rfindIdx sub t).map (· + 1) with
      | some n => some n
      | none => if sub.isPrefixOf (c :: t) then some 0 else none

/-- `s.find(sub, st)` for a natural start index, as an `Option`. -/
def pyFindN (s sub : List Char) (st : Nat) : Option Nat :=
  (findIdx sub (s.drop st)).map (st + ·)

/-- `s.rfind(sub, 0, stop)`: last occurrence lying entirely inside
`s[0:stop]`, as an `Option`. -/
def pyRfindN (s sub : List Char) (stop : Nat) : Option Nat :=
  rfindIdx sub (s.take stop)

/-- Python index normalisation for slices and `find` starts: a negative
index counts from the end (clamped at 0), a non-negative one is clamped
at the length. -/
def normIdx (len : Nat) (i : Int) : Nat :=
  if i < 0 then ((len : Int) + i).toNat else min i.toNat len

/-- `s.find(sub, start)` with Python `int` semantics (`-1` = not found,
negative starts count from the end). -/
def pyFind (s sub : List Char) (start : Int) : Int :=
  match pyFindN s sub (normIdx s.length start) with
  | some n => (n : Int)
  | none => -1

/-- Python slice `s[i:]`. -/
def pySliceFrom (s : List Char) (i : Int) : List Char :=
  s.drop (normIdx s.length i)

/-- Python slice `s[:i]`. -/
def pySliceTo (s : List Char) (i : Int) : List Char :=
  s.take (normIdx s.length i)

/-- `sub` occurs in `s` at position `m`. -/
def OccAt (sub s : List Char) (m : Nat) : Prop :=
  (s.drop m).take sub.length = sub

instance (sub s : List Char) (m : Nat) : Decidable (OccAt sub s m) := by
  unfold OccAt; infer_instance

/-- `sub in s` (Python substring containment). -/
def containsSub (sub s : List Char) : Bool :=
  (findIdx sub s).isSome

/-- `s.split(sep)` for a non-empty separator, fuel-bounded recursion on
the length of `s` (each split step consumes at least one character). -/
def splitOnSubAux (sep : List Char) : Nat → List Char → List (List Char)
  | 0, s => [s]
  | fuel + 1, s =>
      match findIdx sep s with
      | none => [s]
      | some n => s.take n :: splitOnSubAux sep fuel (s.drop (n + sep.length))

/-- `s.split(sep)` for a non-empty separator. -/
def splitOnSub (sep s : List Char) : List (List Char) :=
  splitOnSubAux sep s.length s

/-- `s.count(sub)`: number of non-overlapping occurrences, counted from
the left, fuel-bounded like `splitOnSub`. -/
def countSubAux (sub : List Char) : Nat → List Char → Nat
  | 0, _ => 0
  | fuel + 1, s =>
      match findIdx sub s with
      | none => 0
      | some n => 1 + countSubAux sub fuel (s.drop (n + sub.length))

/-- `s.count(sub)` for a non-empty pattern. -/
def countSub (sub s : List Char) : Nat :=
  countSubAux sub s.length s

/-- `s.split(c)` on a single character separator (keeps empty pieces). -/
def splitOnChar (sep : Char) : List Char → List (List Char)
  | [] => [[]]
  | c :: t =>
      if c == sep then [] :: splitOnChar sep t
      else
        match splitOnChar sep t with
        | [] => [[c]]
        | h :: r => (c :: h) :: r

/-- Python whitespace test used by `str.split()` and `str.strip()`
(ASCII portion). -/
def isPySpace (c : Char) : Bool :=
  c == ' ' || c == '\t' || c == '\n' || c == '\r' || c == '\x0b' || c == '\x0c'

/-- Helper for `splitWS`: `acc` is the current word, reversed. -/
def splitWSAux : List Char → List Char → List (List Char)
  | acc, [] => if acc.isEmpty then [] else [acc.reverse]
  | acc, c :: t =>
      if isPySpace c then
        if acc.isEmpty then splitWSAux [] t else acc.reverse :: splitWSAux [] t
      else splitWSAux (c :: acc) t

/-- `s.split()`: split on runs of whitespace, dropping empty pieces. -/
def splitWS (s : List Char) : List (List Char) :=
  splitWSAux [] s

/-- `s.strip()`: strip Python whitespace from both ends. -/
def stripWS (s : List Char) : List Char :=
  ((s.dropWhile isPySpace).reverse.dropWhile isPySpace).reverse

/-- `s.strip(c)` for a single strip character. -/
def stripChar (c : Char) (s : List Char) : List Char :=
  ((s.dropWhile (· == c)).reverse.dropWhile (· == c)).reverse

/-- `s.lower()` (ASCII case folding, enough for the markers and keyword
lists the scripts compare). -/
def toLowerL (s : List Char) : List Char :=
  s.map Char.toLower

/-- Lexicographic `<` on Python strings (code point order). -/
def listCharLt : List Char → List Char → Bool
  | [], [] => false
  | [], _ :: _ => true
  | _ :: _, [] => false
  | a :: as, b :: bs =>
      if a < b then true else if b < a then false else listCharLt as bs

/-- Insert `x` in front of the first element `y` with `le x y = true`.
Together with `sortBy` this models the stable Python `list.sort`:
`le a b` reads: a may come before b. -/
def orderedInsertBy (le : α → α → Bool) (x : α) : List α → List α
  | [] => [x]
  | y :: ys => if le x y then x :: y :: ys else y :: orderedInsertBy le x ys

/-- Stable sort by insertion; extensionally equal to Python `list.sort`
with the corresponding comparator (stable sorts with the same
comparator agree). -/
def sortBy (le : α → α → Bool) : List α → List α
  | [] => []
  | x :: xs => orderedInsertBy le x (sortBy le xs)

/-- `sep.join(pieces)`. -/
def joinSep (sep : List Char) : List (List Char) → List Char
  | [] => []
  | [x] => x
  | x :: y :: r => x ++ sep ++ joinSep sep (y :: r)

/-- A Python `datetime.date`: the calendar-date component the scripts
extract from parsed datetimes. -/
structure PyDate where
  year : Nat
  month : Nat
  day : Nat
deriving DecidableEq, Repr

/-- Gregorian leap year rule used by `datetime`. -/
def isLeap (y : Nat) : Bool :=
  y % 4 == 0 && (y % 100 != 0 || y % 400 == 0)

/-- Days in a month as validated by the `datetime` constructors. -/
def daysInMonth (y m : Nat) : Nat :=
  if m == 1 || m == 3 || m == 5 || m == 7 || m == 8 || m == 10 || m == 12 then 31
  else if m == 4 || m == 6 || m == 9 || m == 11 then 30
  else if m == 2 then (if isLeap y then 29 else 28)
  else 0

/-- Decimal digit value of a character, `none` for non-digits. -/
def charDigit (c : Char) : Option Nat :=
  if '0' ≤ c && c ≤ '9' then some (c.toNat - 48) else none

/-- Python `int(tok)` restricted to unsigned decimal tokens: all-digit,
non-empty. -/
def parseNat : List Char → Option Nat
  | [] => none
  | s =>
      s.foldl
        (fun acc c =>
          match acc, charDigit c with
          | some n, some d => some (n * 10 + d)
          | _, _ => none)
        (some 0)

/-- Decimal digits of `n`, most significant first (fuel-bounded). -/
def natDigitsAux : Nat → Nat → List Char
  | 0, _ => []
  | fuel + 1, n =>
      if n < 10 then [Char.ofNat (48 + n)]
      else natDigitsAux fuel (n / 10) ++ [Char.ofNat (48 + n % 10)]

/-- Decimal representation of `n`. -/
def natDigits (n : Nat) : List Char :=
  natDigitsAux (n + 1) n

/-- Zero-padded two-digit field (`%m`, `%d`). -/
def pad2 (n : Nat) : List Char :=
  if n < 10 then '0' :: natDigits n else natDigits n

/-- `dt.date().strftime("%Y-%m-%d")`. -/
def strftime_Ymd (d : PyDate) : List Char :=
  natDigits d.year ++ '-' :: pad2 d.month ++ '-' :: pad2 d.day

/-- Full month names for `%B`. -/
def monthName (m : Nat) : List Char :=
  match m with
  | 1 => "January".data
  | 2 => "February".data
  | 3 => "March".data
  | 4 => "April".data
  | 5 => "May".data
  | 6 => "June".data
  | 7 => "July".data
  | 8 => "August".data
  | 9 => "September".data
  | 10 => "October".data
  | 11 => "November".data
  | 12 => "December".data
  | _ => []

/-- `dt.strftime("%B %d, %Y")`, the display form of archive dates. -/
def strftime_BdY (d : PyDate) : List Char :=
  monthName d.month ++ ' ' :: pad2 d.day ++ ',' :: ' ' :: natDigits d.year

/-- Weekday names recognised by `email._parseaddr`. -/
def dayNames : List (List Char) :=
  ["mon".data, "tue".data, "wed".data, "thu".data, "fri".data, "sat".data,
   "sun".data]

/-- Month names recognised by `email._parseaddr` (`_monthnames`):
abbreviated then full; index + 1 gives the month, values above 12 are
reduced by 12. -/
def monthNames : List (List Char) :=
  ["jan".data, "feb".data, "mar".data, "apr".data, "may".data, "jun".data,
   "jul".data, "aug".data, "sep".data, "oct".data, "nov".data, "dec".data,
   "january".data, "february".data, "march".data, "april".data, "may".data,
   "june".data, "july".data, "august".data, "september".data, "october".data,
   "november".data, "december".data]

/-- Index of `m` in `monthNames` (Python `list.index`). -/
def monthIndex (m : List Char) : Option Nat :=
  (monthNames.indexOf? m)

/-- Drop a trailing comma (Python `tok[:-1]` guarded by `tok[-1] == ','`). -/
def dropTrailingComma (tok : List Char) : List Char :=
  if tok ≠ [] ∧ tok.getLast? = some ',' then tok.take (tok.length - 1) else tok

/-- Second half of the parse: fields `dd mm yy tm tz` as unpacked by
`email._parseaddr._parsedate_tz`, validated the way
`datetime.datetime(*dtuple[:6])` validates them.  Returns the calendar
date, which is all `format_pub_date`/`format_date` use. -/
def parsedateFields (dd mm yy tm tz : List Char) : Option PyDate :=
  let mml := toLowerL mm
  -- if mm is not a month name, swap dd and mm
  let p : List Char × List Char :=
    if (monthIndex mml).isSome then (dd, mml) else (mml, toLowerL dd)
  let dd := p.1
  let mm := p.2
  match monthIndex mm with
  | none => none
  | some idx =>
      let month := if idx + 1 > 12 then idx + 1 - 12 else idx + 1
      let dd := dropTrailingComma dd
      -- if yy looks like a time (has a ':' at i > 0) swap yy and tm
      let q : List Char × List Char :=
        match findIdx [':'] yy with
        | some i => if i > 0 then (tm, yy) else (yy, tm)
        | none => (yy, tm)
      let yy := dropTrailingComma q.1
      let tm := q.2
      if yy = [] then none
      else
        -- if yy does not start with a digit, swap yy and tz
        let r : List Char × List Char :=
          match yy with
          | c :: _ => if (charDigit c).isSome then (yy, tz) else (tz, yy)
          | [] => (yy, tz)
        let yy := r.1
        let tm := dropTrailingComma tm
        let hms : Option (List Char × List Char × List Char) :=
          match splitOnChar ':' tm with
          | [h, m] => some (h, m, "0".data)
          | [h, m, s] => some (h, m, s)
          | _ => none
        match hms with
        | none => none
        | some (th, tmin, ts) =>
            match parseNat yy, parseNat dd, parseNat th, parseNat tmin,
                parseNat ts with
            | some y, some d, some hh, some mi, some ss =>
                let y := if y < 100 then (if y > 68 then y + 1900 else y + 2000)
                  else y
                if 1 ≤ y ∧ y ≤ 9999 ∧ 1 ≤ d ∧ d ≤ daysInMonth y month ∧
                    hh ≤ 23 ∧ mi ≤ 59 ∧ ss ≤ 59 then
                  some ⟨y, month, d⟩
                else none
            | _, _, _, _, _ => none

/-- Model of `email.utils.parsedate_to_datetime` (standard library),
restricted to the calendar-date component: tokenize, drop an optional
weekday, split a glued timezone, unpack the five fields and validate.
`none` models the `ValueError` the library raises on failure. -/
def parsedate_to_datetime (raw : List Char) : Option PyDate :=
  match splitWS raw with
  | [] => none
  | d0 :: rest =>
      let data :=
        if d0.getLast? = some ',' || (toLowerL d0) ∈ dayNames then rest
        else
          (match rfindIdx [','] d0 with
           | some i => d0.drop (i + 1)
           | none => d0) :: rest
      -- RFC 850 form: a dd-mon-yy first token
      let data :=
        match data with
        | [a, b, c] =>
            (match splitOnChar '-' a with
             | [x, y, z] => [x, y, z, b, c]
             | _ => [a, b, c])
        | l => l
      -- a timezone glued onto the time token
      let data :=
        match data with
        | [a, b, c, s] =>
            let i :=
              match findIdx ['+'] s with
              | some i => some i
              | none => findIdx ['-'] s
            (match i with
             | some i =>
                 if i > 0 then [a, b, c, s.take i, s.drop i]
                 else [a, b, c, s, []]
             | none => [a, b, c, s, []])
        | l => l
      let data := if data.length < 5 then data ++ [[]] else data
      match data with
      | dd :: mm :: yy :: tm :: tz :: _ => parsedateFields dd mm yy tm tz
      | _ => none

/-- `datetime.datetime.strptime(slug, "%Y-%m-%d").date()`: exactly four
year digits, a 1-2 digit month 1-12, a 1-2 digit day 1-31, separated by
literal dashes and spanning the whole string, then range-validated by
the `date` constructor.  `none` models `ValueError`. -/
def strptime_Ymd (slug : List Char) : Option PyDate :=
  match splitOnChar '-' slug with
  | [ys, ms, ds] =>
      if ys.length = 4 ∧ (ys.all fun c => (charDigit c).isSome) ∧
          1 ≤ ms.length ∧ ms.length ≤ 2 ∧
          (ms.all fun c => (charDigit c).isSome) ∧
          1 ≤ ds.length ∧ ds.length ≤ 2 ∧
          (ds.all fun c => (charDigit c).isSome) then
        match parseNat ys, parseNat ms, parseNat ds with
        | some y, some m, some d =>
            if 1 ≤ y ∧ 1 ≤ m ∧ m ≤ 12 ∧ 1 ≤ d ∧ d ≤ daysInMonth y m then
              some ⟨y, m, d⟩
            else none
        | _, _, _ => none
      else none
  | _ => none

/-- Calendar order on dates (`datetime.date` comparison). -/
def dateLe (a b : PyDate) : Prop :=
  a.year < b.year ∨
    (a.year = b.year ∧
      (a.month < b.month ∨ (a.month = b.month ∧ a.day ≤ b.day)))

instance (a b : PyDate) : Decidable (dateLe a b) := by
  unfold dateLe; infer_instance

/-- Boolean strict calendar order on dates, used inside sort
comparators. -/
def dateLtB (a b : PyDate) : Bool :=
  if a.year < b.year then true
  else if b.year < a.year then false
  else if a.month < b.month then true
  else if b.month < a.month then false
  else a.day < b.day

/-- A parsed RSS item as built by the fetch loop of each script (all fields
already stripped; items with empty titles are discarded there). -/
structure Item where
  title : List Char
  description : List Char
  link : List Char
  pub_raw : List Char
deriving DecidableEq, Repr

/-- The de-duplication loop shared by the three `fetch_rss_items`
functions: keep an item when its title is not in `seen`, else drop it. -/
def dedupByTitle : List Item → List (List Char) → List Item
  | [], _ => []
  | it :: rest, seen =>
      if seen.contains it.title then dedupByTitle rest seen
      else it :: dedupByTitle rest (it.title :: seen)

/-- Configured maximum batch size, identical in all three scripts. -/
def MAX_ARTICLES : Nat := 10

/-- `">"` as searched for by the mutation functions. -/
def gtTok : List Char := ">".data

/-- `"</div>"`. -/
def tagDivClose : List Char := "</div>".data

/-- `"<div"`. -/
def tagDivOpen : List Char := "<div".data

/-- `"</ul>"`. -/
def tagUlClose : List Char := "</ul>".data

/-- `"<ul"`. -/
def tagUlOpen : List Char := "<ul".data

/-- `"\n"`. -/
def nlTok : List Char := "\n".data

/-- The blank-line block separator `"\n\n"`. -/
def blankSep : List Char := "\n\n".data

/-- `"</body>"`. -/
def bodyCloseTok : List Char := "</body>".data

/-- `".html"`. -/
def htmlSuffix : List Char := ".html".data

namespace news_generator

/-- Tail of `news_generator.fetch_rss_items`: de-duplicate by exact
title, keep first occurrences, truncate to `MAX_ARTICLES`.  The HTTP
and XML work that produces `raw` is external I/O (spec section 4.1) and
is modelled by the `raw` parameter. -/
def fetch_rss_items (raw : List Item) : List Item :=
  (dedupByTitle raw []).take MAX_ARTICLES

/-- `news_generator.format_pub_date`: empty input gives the sentinel,
a parse failure returns the raw string unchanged, success gives
`YYYY-MM-DD`. -/
def format_pub_date (raw : List Char) : List Char :=
  if raw.isEmpty then ("Unknown date".data)
  else
    match parsedate_to_datetime raw with
    | some dt => strftime_Ymd dt
    | none => raw

/-- One `<li>` line of `build_sources_html`. -/
def sourceLine (it : Item) : List Char :=
  "<li><a href=\"".data ++ it.link ++
    "\" target=\"_blank\" rel=\"noopener noreferrer\">".data ++ it.title ++
    "</a> <span class=\"source-date\">(".data ++ format_pub_date it.pub_raw ++
    ")</span></li>".data

/-- `news_generator.build_sources_html`. -/
def build_sources_html (items : List Item) : List Char :=
  if items.isEmpty then []
  else
    "<h2 class=\"sources-title\">Sources &amp; Dates</h2>\n<ul>\n".data ++
      joinSep nlTok (items.map sourceLine) ++ "\n</ul>".data

/-- The anchor substring `marker_id` of `update_index_html`. -/
def marker_id : List Char := "id=\"article\"".data

/-- The inner content `update_index_html` injects when the anchor is
found; `ts` is the UTC timestamp string. -/
def inner_html (ts article_html : List Char) : List Char :=
  "\n<p class=\"article-date\">Updated: <span id=\"updated-date\" data-ts=\"".data
    ++ ts ++ "\"></span></p>\n".data ++ article_html ++ "\n".data

/-- The freshly constructed block `update_index_html` injects when the
anchor is missing. -/
def article_block (ts article_html : List Char) : List Char :=
  "\n<div id=\"article\">\n  <p class=\"article-date\">Updated: <span id=\"updated-date\" data-ts=\"".data
    ++ ts ++ "\"></span></p>\n  ".data ++ article_html ++ "\n</div>\n".data

/-- `news_generator.update_index_html` on document text `h`: replace
the inner content of the `<div id="article">` region; if the anchor is
missing, inject a fresh block before `</body>` (or append).  `error`
models the `RuntimeError` raises, which happen before the file write. -/
def update_index_html (ts article_html h : List Char) :
    Except String (List Char) :=
  match pyFindN h marker_id 0 with
  | some pos_id =>
      match pyRfindN h tagDivOpen pos_id with
      | none => .error ("Could not find opening div")
      | some start =>
          match pyFindN h gtTok start with
          | none => .error ("Could not find end of div tag")
          | some ste =>
              match pyFindN h tagDivClose ste with
              | none => .error ("Could not find closing div")
              | some e =>
                  .ok (h.take (ste + 1) ++ inner_html ts article_html ++
                    h.drop e)
  | none =>
      let block := article_block ts article_html
      match rfindIdx bodyCloseTok (toLowerL h) with
      | some bc => .ok (h.take bc ++ block ++ h.drop bc)
      | none => .ok (h ++ block)

/-- Entry tuples of `build_archive_list_items` before sorting: one per
filename ending in `.html` whose stem parses as `%Y-%m-%d`; the
components are the Python tuple `(dt, display, url)`. -/
def build_archive_entries (names : List (List Char)) :
    List (PyDate × List Char × List Char) :=
  names.filterMap fun name =>
    if htmlSuffix.isSuffixOf name then
      match strptime_Ymd (name.take (name.length - 5)) with
      | some dt => some (dt, strftime_BdY dt, "archives/".data ++ name)
      | none => none
    else none

/-- Python tuple `<` on archive entries (`date`, then display, then
url, lexicographically). -/
def entryLtB (a b : PyDate × List Char × List Char) : Bool :=
  if dateLtB a.1 b.1 then true
  else if dateLtB b.1 a.1 then false
  else if listCharLt a.2.1 b.2.1 then true
  else if listCharLt b.2.1 a.2.1 then false
  else listCharLt a.2.2 b.2.2

/-- `entries.sort(reverse=True)` of `build_archive_list_items`: stable
descending sort in Python tuple order. -/
def sorted_archive_entries (names : List (List Char)) :
    List (PyDate × List Char × List Char) :=
  sortBy (fun a b => !(entryLtB a b)) (build_archive_entries names)

/-- Render one entry tuple to its `<li>` link line. -/
def archiveLine (e : PyDate × List Char × List Char) : List Char :=
  "<li><a href=\"".data ++ e.2.2 ++ "\">".data ++ e.2.1 ++ "</a></li>".data

/-- `news_generator.build_archive_list_items`; the archive directory
state is `none` when the directory does not exist, else the list of
filenames `os.listdir` returns. -/
def build_archive_list_items (dir : Option (List (List Char))) :
    List (List Char) :=
  match dir with
  | none => []
  | some names => (sorted_archive_entries names).map archiveLine

/-- The anchor substring of `update_archive_list_on_index`. -/
def archive_list_marker : List Char := "id=\"archive-list\"".data

/-- `news_generator.update_archive_list_on_index`: replace the inner
content of `<ul id="archive-list">`; on any missing anchor the function
prints and returns without writing, modelled by returning `h`
unchanged. -/
def update_archive_list_on_index (dir : Option (List (List Char)))
    (h : List Char) : List Char :=
  match pyFindN h archive_list_marker 0 with
  | none => h
  | some pos =>
      match pyRfindN h tagUlOpen pos with
      | none => h
      | some start =>
          match pyFindN h gtTok start with
          | none => h
          | some ste =>
              match pyFindN h tagUlClose ste with
              | none => h
              | some e =>
                  let items := build_archive_list_items dir
                  let inner :=
                    if items.isEmpty then
                      "\n<li class=\"archive-empty\">No archives yet.</li>\n".data
                    else ("\n".data) ++ joinSep nlTok items ++ ("\n".data)
                  h.take (ste + 1) ++ inner ++ h.drop e

/-- The `"Updated:"`-line filter `main` applies to the oracle output. -/
def stripUpdatedLines (summary : List Char) : List Char :=
  joinSep nlTok
    ((splitOnChar '\n' summary).filter fun line =>
      !("Updated:".data.isPrefixOf (stripWS line)))

/-- The block loop of `news_generator.main`: `###` blocks become `<h2>`
headings, everything else a `<p>` paragraph. -/
def main_summary_html (summary : List Char) : List Char :=
  (splitOnSub blankSep summary).foldl
    (fun html block =>
      let text := stripWS block
      if text.isEmpty then html
      else if ("###".data).isPrefixOf text then
        html ++ "<h2>".data ++ stripWS (text.dropWhile (· == '#')) ++
          "</h2>\n".data
      else html ++ "<p>".data ++ text ++ "</p>\n".data)
    []

/-- The fallback article published when no items were fetched. -/
def fallback_html : List Char :=
  "<p>We couldn\x27t fetch any news right now. Please check back later.</p>".data

/-- `news_generator.main`, from the value returned by
`fetch_rss_items` on (`items`) and the oracle reply (`summary`): the
first component is the payload written to the archive page of the day (`none`
when no archive page is written; the fixed page shell around the
payload is omitted), the second the fate of `index.html`. -/
def main (ts : List Char) (dir : Option (List (List Char)))
    (items : List Item) (summary : List Char) (index_html : List Char) :
    Option (List Char) × Except String (List Char) :=
  if items.isEmpty then
    (none,
      match update_index_html ts fallback_html index_html with
      | .error e => .error e
      | .ok h1 => .ok (update_archive_list_on_index dir h1))
  else
    let cleaned := stripUpdatedLines summary
    let full := main_summary_html cleaned ++ "\n<hr />\n".data ++
      build_sources_html items
    (some full,
      match update_index_html ts full index_html with
      | .error e => .error e
      | .ok h1 => .ok (update_archive_list_on_index dir h1))

end news_generator

namespace tech_generator

/-- Tail of `tech_generator.fetch_rss_items` (same de-duplicate /
truncate logic as the news script). -/
def fetch_rss_items (raw : List Item) : List Item :=
  (dedupByTitle raw []).take MAX_ARTICLES

/-- `tech_generator.format_date`: sentinel `"Unknown"` for an empty
input, the raw string on parse failure, `YYYY-MM-DD` on success. -/
def format_date (raw : List Char) : List Char :=
  if raw.isEmpty then ("Unknown".data)
  else
    match parsedate_to_datetime raw with
    | some dt => strftime_Ymd dt
    | none => raw

/-- `"###"`. -/
def hashTok : List Char := "###".data

/-- `tech_generator.convert_summary_to_html`: blocks starting with
`###` become `<h2>` headings, everything else a `<p>` paragraph. -/
def convert_summary_to_html (summary : List Char) : List Char :=
  (splitOnSub blankSep summary).foldl
    (fun html block =>
      let text := stripWS block
      if text.isEmpty then html
      else if hashTok.isPrefixOf text then
        html ++ "<h2>".data ++ stripWS (text.dropWhile (· == '#')) ++
          "</h2>\n".data
      else html ++ "<p>".data ++ text ++ "</p>\n".data)
    []

/-- The anchor `marker` of `update_tech_page`. -/
def marker : List Char := "<div id=\"article\">".data

/-- The inner content `update_tech_page` injects (`today` is the
pre-formatted display date). -/
def inner_html (today summary_html : List Char) : List Char :=
  "\n<p class=\"article-date\">Updated: ".data ++ today ++ "</p>\n".data ++
    summary_html ++ "\n".data

/-- `tech_generator.update_tech_page`: replace the inner content of
`<div id="article">` in `tech.html`.  Only the anchor itself is
checked; the follow-up `find` calls keep Python `-1` / negative-slice
semantics when they fail. -/
def update_tech_page (today summary_html h : List Char) :
    Except String (List Char) :=
  match pyFindN h marker 0 with
  | none => .error ("tech.html missing <div id=article>")
  | some start =>
      let ste : Int := pyFind h gtTok (start : Int)
      let e : Int := pyFind h tagDivClose ste
      .ok (pySliceTo h (ste + 1) ++ inner_html today summary_html ++
        pySliceFrom h e)

/-- `tech_generator.main` from the `fetch_rss_items` value and the
oracle reply: `none` when no items were fetched (log and exit, no page
touched), otherwise the fate of `tech.html`. -/
def main (items : List Item) (summary today tech_html : List Char) :
    Option (Except String (List Char)) :=
  if items.isEmpty then none
  else some (update_tech_page today (convert_summary_to_html summary) tech_html)

end tech_generator

namespace gaming_generator

/-- Tail of `gaming_generator.fetch_rss_items` (the same de-duplicate /
truncate logic; note the item loop above it in the source file is
mis-indented and would not even compile as Python). -/
def fetch_rss_items (raw : List Item) : List Item :=
  (dedupByTitle raw []).take MAX_ARTICLES

/-- `gaming_generator.format_date` (same as the tech script). -/
def format_date (raw : List Char) : List Char :=
  if raw.isEmpty then ("Unknown".data)
  else
    match parsedate_to_datetime raw with
    | some dt => strftime_Ymd dt
    | none => raw

/-- The keyword allow-list local to `convert_summary_to_html` (it
shadows the module-level list). -/
def GAME_KEYWORDS : List (List Char) :=
  ["game".data, "gaming".data, "xbox".data, "playstation".data, "ps5".data,
   "nintendo".data, "switch".data, "steam".data, "pc release".data,
   "dlc".data, "update".data, "patch".data, "league of legends".data,
   "valorant".data, "esports".data, "tournament".data, "blizzard".data,
   "activision".data, "bethesda".data, "ubisoft".data, "epic".data]

/-- `"###"`. -/
def hashTok : List Char := "###".data

/-- `"**"`. -/
def boldTok : List Char := "**".data

/-- `gaming_generator.convert_summary_to_html`: heading-looking blocks
(`###` or `**...**`) whose lowercased text contains no keyword are
dropped; surviving `###` blocks and bold-only blocks (exactly one bold
pair, length > 4) become `<h2>` headings; everything else a `<p>`. -/
def convert_summary_to_html (summary : List Char) : List Char :=
  (splitOnSub blankSep summary).foldl
    (fun html block =>
      let text := stripWS block
      if text.isEmpty then html
      else
        let lowered := toLowerL text
        if (hashTok.isPrefixOf text ||
              (boldTok.isPrefixOf text && boldTok.isSuffixOf text)) &&
            !(GAME_KEYWORDS.any fun k => containsSub k lowered) then
          html
        else if hashTok.isPrefixOf text then
          html ++ "<h2>".data ++ stripWS (text.dropWhile (· == '#')) ++
            "</h2>\n".data
        else if boldTok.isPrefixOf text && boldTok.isSuffixOf text &&
            countSub boldTok text == 2 && text.length > 4 then
          html ++ "<h2>".data ++ stripWS (stripChar '*' text) ++
            "</h2>\n".data
        else html ++ "<p>".data ++ text ++ "</p>\n".data)
    []

/-- The anchor `marker` of `update_gaming_page`. -/
def marker : List Char := "<div id=\"article\">".data

/-- The inner content `update_gaming_page` injects (`display_date` is
`today.strftime("%B %d, %Y")`). -/
def inner_html (display_date summary_html : List Char) : List Char :=
  "\n<p class=\"article-date\">Updated: ".data ++ display_date ++
    "</p>\n".data ++ summary_html ++ "\n".data

/-- `gaming_generator.update_gaming_page`: replace the inner content of
`<div id="article">` in `gaming.html`; as in the tech script only the
anchor itself is checked. -/
def update_gaming_page (display_date summary_html h : List Char) :
    Except String (List Char) :=
  match pyFindN h marker 0 with
  | none => .error ("gaming.html missing <div id=article>")
  | some start =>
      let ste : Int := pyFind h gtTok (start : Int)
      let e : Int := pyFind h tagDivClose ste
      .ok (pySliceTo h (ste + 1) ++ inner_html display_date summary_html ++
        pySliceFrom h e)

/-- The placeholder line rendered when there are no gaming archives. -/
def no_archives_line : List Char :=
  "<li class=\"archive-empty\">No previous gaming digests yet.</li>".data

/-- Entry pairs `(slug, display)` of `build_gaming_archive_list_html`:
every `.html` filename is kept; when the stem does not parse as a date
the slug itself is used as the display text. -/
def build_gaming_archive_entries (names : List (List Char)) :
    List (List Char × List Char) :=
  names.filterMap fun name =>
    if htmlSuffix.isSuffixOf name then
      let slug := name.take (name.length - 5)
      some (slug,
        match strptime_Ymd slug with
        | some dt => strftime_BdY dt
        | none => slug)
    else none

/-- Render one gaming archive entry to its `<li>` link line. -/
def gamingArchiveLine (e : List Char × List Char) : List Char :=
  "<li><a href=\"gaming_archives/".data ++ e.1 ++ ".html\">".data ++ e.2 ++
    "</a></li>".data

/-- `gaming_generator.build_gaming_archive_list_html`: placeholder when
the directory is missing or holds no `.html` file, else the link lines
sorted by slug string descending (`sort(key=..., reverse=True)`). -/
def build_gaming_archive_list_html (dir : Option (List (List Char))) :
    List Char :=
  match dir with
  | none => no_archives_line
  | some names =>
      let entries := build_gaming_archive_entries names
      if entries.isEmpty then no_archives_line
      else
        joinSep nlTok
          ((sortBy (fun a b => !(listCharLt a.1 b.1)) entries).map
            gamingArchiveLine)

/-- The anchor of `update_gaming_archive_list_on_page`. -/
def archive_marker : List Char := "<ul id=\"gaming-archive-list\">".data

/-- `gaming_generator.update_gaming_archive_list_on_page`: splice the
rebuilt list into `<ul id="gaming-archive-list">`; a missing anchor
raises, the follow-up finds are unchecked as in `update_gaming_page`. -/
def update_gaming_archive_list_on_page (dir : Option (List (List Char)))
    (h : List Char) : Except String (List Char) :=
  match pyFindN h archive_marker 0 with
  | none => .error ("gaming.html missing <ul id=gaming-archive-list>")
  | some start =>
      let ste : Int := pyFind h gtTok (start : Int)
      let e : Int := pyFind h tagUlClose ste
      .ok (pySliceTo h (ste + 1) ++ nlTok ++
        build_gaming_archive_list_html dir ++ nlTok ++ pySliceFrom h e)

/-- `gaming_generator.main` from the `fetch_rss_items` value and the
oracle reply: `none` when no items were fetched (log and exit, nothing
touched); otherwise the archive payload that is written and the fate of
`gaming.html` after the page update and the archive-list update. -/
def main (items : List Item) (summary display_date gaming_html : List Char)
    (dir : Option (List (List Char))) :
    Option (List Char × Except String (List Char)) :=
  if items.isEmpty then none
  else
    let sh := convert_summary_to_html summary
    some (sh,
      match update_gaming_page display_date sh gaming_html with
      | .error e => .error e
      | .ok h1 => update_gaming_archive_list_on_page dir h1)

end gaming_generator

deriving instance DecidableEq for Except

/-- Sample page used to exercise the successful mutation path: both the
news and the tech anchor layout are present. -/
def sample_page : List Char :=
  "<html><div id=\"article\">old</div><p>t</p></html>".data

/-- Sample page with no `id="article"` anywhere. -/
def plain_page : List Char := "<html><body>hi</body></html>".data

/-- Sample gaming page for the idempotence witness. -/
def gaming_page : List Char := "<div id=\"article\">OLD</div><p>r</p>".data

/-- Gaming page used to refute unconditional idempotence. -/
def gaming_ce_page : List Char := "<div id=\"article\">x</div>end".data

/-- Display date for the idempotence counterexample. -/
def gaming_ce_date : List Char := "D".data

/-- New inner content containing the closing tag of the region. -/
def gaming_ce_content : List Char := "a</div>b".data

/-- Result of the first mutation in the idempotence counterexample. -/
def gaming_ce_once : List Char :=
  match gaming_generator.update_gaming_page gaming_ce_date gaming_ce_content
      gaming_ce_page with
  | .ok r => r
  | .error _ => []

/-- Tech page whose article region has no closing `</div>` after it. -/
def tech_bad_page : List Char := "<html><div id=\"article\"><p>x</p>".data

/-- Sample `index.html` with both the article and the archive-list
regions. -/
def sample_index : List Char :=
  "<html><body><div id=\"article\">old</div><ul id=\"archive-list\"><li>x</li></ul></body></html>".data

/-- An archive directory listing with a single dated page. -/
def sample_archive_names : List (List Char) := ["2024-01-01.html".data]

/-- What `news_generator.main` makes of `index.html` when no items were
fetched, for `sample_index` and `sample_archive_names`. -/
def sample_index_out : List Char :=
  "<html><body><div id=\"article\">\n<p class=\"article-date\">Updated: <span id=\"updated-date\" data-ts=\"TS\"></span></p>\n<p>We couldn\x27t fetch any news right now. Please check back later.</p>\n</div><ul id=\"archive-list\">\n<li><a href=\"archives/2024-01-01.html\">January 01, 2024</a></li>\n</ul></body></html>".data

theorem isPrefixOf_eq_take (sub t : List Char) :
    sub.isPrefixOf t = true ↔ t.take sub.length = sub := by
  rw [ List.isPrefixOf_iff_prefix]
  constructor
  · intro hp
    exact ( List.prefix_iff_eq_take.mp hp).symm
  · intro he
    exact List.prefix_iff_eq_take.mpr he.symm

theorem occAt_zero_iff (sub s : List Char) :
    OccAt sub s 0 ↔ sub.isPrefixOf s = true := by
  rw [isPrefixOf_eq_take]
  unfold OccAt
  rw [List.drop_zero s]

theorem occAt_cons_succ (sub : List Char) (c : Char) (t : List Char) (m : Nat) :
    OccAt sub (c :: t) (m + 1) ↔ OccAt sub t m := by
  unfold OccAt
  rfl

theorem findIdx_some_occ {sub s : List Char} :
    ∀ {n : Nat}, findIdx sub s = some n → OccAt sub s n := by
  induction s with
  | nil =>
      intro n h
      unfold findIdx at h
      by_cases hp : sub.isPrefixOf ([] : List Char) = true
      · rw [hp] at h
        simp at h
        subst h
        exact (occAt_zero_iff sub []).mpr hp
      · simp [hp] at h
  | cons c t ih =>
      intro n h
      unfold findIdx at h
      by_cases hp : sub.isPrefixOf (c :: t) = true
      · rw [hp] at h
        simp at h
        subst h
        exact (occAt_zero_iff sub (c :: t)).mpr hp
      · simp [hp] at h
        obtain ⟨k, hk, rfl⟩ := h
        exact (occAt_cons_succ sub c t k).mpr (ih hk)

theorem findIdx_some_min {sub s : List Char} :
    ∀ {n : Nat}, findIdx sub s = some n → ∀ m, m < n → ¬ OccAt sub s m := by
  induction s with
  | nil =>
      intro n h m hm
      unfold findIdx at h
      by_cases hp : sub.isPrefixOf ([] : List Char) = true
      · rw [hp] at h
        simp at h
        omega
      · simp [hp] at h
  | cons c t ih =>
      intro n h m hm
      unfold findIdx at h
      by_cases hp : sub.isPrefixOf (c :: t) = true
      · rw [hp] at h
        simp at h
        omega
      · simp [hp] at h
        obtain ⟨k, hk, rfl⟩ := h
        match m with
        | 0 =>
            rw [occAt_zero_iff]
            exact fun hc => hp hc
        | m + 1 =>
            rw [occAt_cons_succ]
            exact ih hk m (by omega)

theorem findIdx_none {sub s : List Char} (h : findIdx sub s = none) :
    ∀ m, ¬ OccAt sub s m := by
  induction s with
  | nil =>
      intro m hocc
      unfold OccAt at hocc
      rw [List.drop_nil, List.take_nil] at hocc
      subst hocc
      unfold findIdx at h
      simp at h
  | cons c t ih =>
      intro m
      unfold findIdx at h
      by_cases hp : sub.isPrefixOf (c :: t) = true
      · rw [hp] at h
        simp at h
      · simp [hp] at h
        match m with
        | 0 =>
            rw [occAt_zero_iff]
            exact fun hc => hp hc
        | m + 1 =>
            rw [occAt_cons_succ]
            exact ih h m

theorem occAt_findIdx {sub s : List Char} :
    ∀ {m : Nat}, OccAt sub s m → ∃ n, n ≤ m ∧ findIdx sub s = some n := by
  induction s with
  | nil =>
      intro m hocc
      unfold OccAt at hocc
      rw [List.drop_nil, List.take_nil] at hocc
      subst hocc
      exact ⟨0, Nat.zero_le m, by unfold findIdx; simp⟩
  | cons c t ih =>
      intro m hocc
      by_cases hp : sub.isPrefixOf (c :: t) = true
      · exact ⟨0, Nat.zero_le m, by unfold findIdx; simp [hp]⟩
      · match m with
        | 0 =>
            exact absurd ((occAt_zero_iff sub (c :: t)).mp hocc) hp
        | m + 1 =>
            obtain ⟨n, hn, hf⟩ := ih ((occAt_cons_succ sub c t m).mp hocc)
            refine ⟨n + 1, by omega, ?_⟩
            unfold findIdx
            simp [hp, hf]

theorem occAt_length {sub s : List Char} {m : Nat} (hsub : sub ≠ [])
    (h : OccAt sub s m) : m + sub.length ≤ s.length := by
  unfold OccAt at h
  have hlen : ((s.drop m).take sub.length).length = sub.length := by
    rw [h]
  rw [List.length_take, List.length_drop] at hlen
  have hpos : 0 < sub.length := List.length_pos.mpr hsub
  omega

theorem take_drop_take (s : List Char) (k m L : Nat) (h : m + L ≤ k) :
    ((s.take k).drop m).take L = (s.drop m).take L := by
  rw [List.drop_take, List.take_take]
  congr 1
  omega

theorem occAt_take_iff {sub s : List Char} {k m : Nat}
    (h : m + sub.length ≤ k) : OccAt sub (s.take k) m ↔ OccAt sub s m := by
  unfold OccAt
  rw [take_drop_take s k m sub.length h]

theorem occAt_append_left_iff {sub l r : List Char} {m : Nat}
    (h : m + sub.length ≤ l.length) :
    OccAt sub (l ++ r) m ↔ OccAt sub l m := by
  have h1 : (l ++ r).take l.length = l := by simp
  rw [← occAt_take_iff h (s := l ++ r), h1]

theorem occAt_append_right_iff (sub l r : List Char) (j : Nat) :
    OccAt sub (l ++ r) (l.length + j) ↔ OccAt sub r j := by
  unfold OccAt
  have h1 : (l ++ r).drop (l.length + j) = r.drop j := by
    rw [← List.drop_drop]
    congr 1
    simp
  rw [h1]

theorem occAt_drop_iff (sub s : List Char) (st k : Nat) :
    OccAt sub (s.drop st) k ↔ OccAt sub s (st + k) := by
  unfold OccAt
  rw [List.drop_drop]

theorem occAt_within_iff {sub s : List Char} {m : Nat} (h : OccAt sub s m)
    (sub2 : List Char) {j : Nat} (hj : j + sub2.length ≤ sub.length) :
    OccAt sub2 s (m + j) ↔ OccAt sub2 sub j := by
  unfold OccAt at h ⊢
  have h1 : s.drop (m + j) = (s.drop m).drop j := by
    rw [List.drop_drop]
  have h2 : sub.drop j = ((s.drop m).take sub.length).drop j := by rw [h]
  rw [h1, h2, List.drop_take, List.take_take]
  have h3 : min sub2.length (sub.length - j) = sub2.length := by omega
  rw [h3]

theorem occAt_sub_take {sub s : List Char} {m : Nat} (h : OccAt sub s m)
    (k : Nat) (hk : k ≤ sub.length) : OccAt (sub.take k) s m := by
  unfold OccAt at h ⊢
  rw [List.length_take]
  have h2 : min k sub.length = k := by omega
  rw [h2]
  have h4 : ((s.drop m).take sub.length).take k = (s.drop m).take k := by
    rw [List.take_take, h2]
  rw [← h4, h]

theorem pyFindN_some_iff {s sub : List Char} {st n : Nat} :
    pyFindN s sub st = some n ↔
      st ≤ n ∧ OccAt sub s n ∧ ∀ m, st ≤ m → m < n → ¬ OccAt sub s m := by
  unfold pyFindN
  constructor
  · intro h
    simp at h
    obtain ⟨k, hk, rfl⟩ := h
    refine ⟨by omega, (occAt_drop_iff sub s st k).mp (findIdx_some_occ hk), ?_⟩
    intro m hm1 hm2 hocc
    have : OccAt sub (s.drop st) (m - st) := by
      rw [occAt_drop_iff]
      have : st + (m - st) = m := by omega
      rw [this]
      exact hocc
    exact findIdx_some_min hk (m - st) (by omega) this
  · rintro ⟨h1, h2, h3⟩
    have hocc : OccAt sub (s.drop st) (n - st) := by
      rw [occAt_drop_iff]
      have : st + (n - st) = n := by omega
      rw [this]
      exact h2
    obtain ⟨k, hk1, hk2⟩ := occAt_findIdx hocc
    have hknot : ¬ k < n - st := by
      intro hlt
      exact h3 (st + k) (by omega) (by omega)
        ((occAt_drop_iff sub s st k).mp (findIdx_some_occ hk2))
    have : k = n - st := by omega
    subst this
    have h4 : st + (n - st) = n := by omega
    rw [hk2]
    simp [h4]

theorem pyFindN_none_iff {s sub : List Char} {st : Nat} :
    pyFindN s sub st = none ↔ ∀ m, st ≤ m → ¬ OccAt sub s m := by
  unfold pyFindN
  constructor
  · intro h m hm
    simp at h
    intro hocc
    have : OccAt sub (s.drop st) (m - st) := by
      rw [occAt_drop_iff]
      have : st + (m - st) = m := by omega
      rw [this]
      exact hocc
    obtain ⟨n, _, hn⟩ := occAt_findIdx this
    rw [h] at hn
    cases hn
  · intro h
    cases hf : findIdx sub (s.drop st) with
    | none => simp [hf]
    | some k =>
        have := findIdx_some_occ hf
        rw [occAt_drop_iff] at this
        exact absurd this (h (st + k) (by omega))

theorem containsSub_false {sub s : List Char} (h : containsSub sub s = false) :
    ∀ m, ¬ OccAt sub s m := by
  unfold containsSub at h
  cases hf : findIdx sub s with
  | none => exact findIdx_none hf
  | some k => rw [hf] at h; simp at h

theorem pySliceTo_nat (s : List Char) (k : Nat) :
    pySliceTo s ((k : Nat) : Int) = s.take k := by
  unfold pySliceTo normIdx
  have h1 : ¬ ((k : Nat) : Int) < 0 := by omega
  rw [if_neg h1]
  have h2 : ((k : Nat) : Int).toNat = k := rfl
  rw [h2]
  rcases Nat.le_total k s.length with hk | hk
  · rw [min_eq_left hk]
  · rw [min_eq_right hk, List.take_length]
    exact (List.take_of_length_le hk).symm

theorem pySliceFrom_nat (s : List Char) (k : Nat) :
    pySliceFrom s ((k : Nat) : Int) = s.drop k := by
  unfold pySliceFrom normIdx
  have h1 : ¬ ((k : Nat) : Int) < 0 := by omega
  rw [if_neg h1]
  have h2 : ((k : Nat) : Int).toNat = k := rfl
  rw [h2]
  rcases Nat.le_total k s.length with hk | hk
  · rw [min_eq_left hk]
  · rw [min_eq_right hk, List.drop_length]
    exact (List.drop_eq_nil_of_le hk).symm

theorem pyFind_nat {s sub : List Char} {st n : Nat} (hst : st ≤ s.length)
    (h : pyFindN s sub st = some n) : pyFind s sub ((st : Nat) : Int) = n := by
  unfold pyFind normIdx
  have h1 : ¬ ((st : Nat) : Int) < 0 := by omega
  rw [if_neg h1]
  simp [Int.toNat_ofNat]
  rw [min_eq_left hst, h]

theorem dedup_filter (t : List Char) :
    ∀ (items : List Item) (seen : List (List Char)),
      (dedupByTitle items seen).filter (fun it => it.title == t) =
        if seen.contains t then []
        else ((items.find? fun it => it.title == t).toList) := by
  intro items
  induction items with
  | nil =>
      intro seen
      unfold dedupByTitle
      by_cases hc : seen.contains t = true
      · simp [hc]
      · simp [hc]
  | cons it rest ih =>
      intro seen
      unfold dedupByTitle
      by_cases h1 : seen.contains it.title = true
      · rw [if_pos h1]
        by_cases h2 : (it.title == t) = true
        · have ht : it.title = t := eq_of_beq h2
          subst ht
          rw [ih seen, if_pos h1, if_pos h1]
        · have h2ne : ¬ it.title = t := by
            intro he
            exact h2 (by rw [he]; exact beq_self_eq_true t)
          have h2f : (it.title == t) = false := beq_false_of_ne h2ne
          rw [ih seen]
          simp only [List.find?_cons, h2f]
      · rw [if_neg h1]
        have h1f : seen.contains it.title = false := by
          cases hx : seen.contains it.title
          · rfl
          · exact absurd hx h1
        have h1m : it.title ∉ seen := by simpa using h1
        by_cases h2 : (it.title == t) = true
        · have ht : it.title = t := eq_of_beq h2
          subst ht
          simp [List.filter_cons, List.find?_cons, ih, h1f, h1m]
        · have h2ne : ¬ it.title = t := by
            intro he
            exact h2 (by rw [he]; exact beq_self_eq_true t)
          have hne2 : ¬ t = it.title := fun he => h2ne he.symm
          have h2f : (it.title == t) = false := beq_false_of_ne h2ne
          simp [List.filter_cons, List.find?_cons, ih, h2f, hne2]

theorem perm_orderedInsertBy (le : α → α → Bool) (x : α) :
    ∀ l : List α, List.Perm (orderedInsertBy le x l) (x :: l) := by
  intro l
  induction l with
  | nil => exact List.Perm.refl _
  | cons y ys ih =>
      unfold orderedInsertBy
      by_cases h : le x y = true
      · rw [if_pos h]
      · rw [if_neg h]
        exact (List.Perm.cons y ih).trans (List.Perm.swap x y ys)

theorem perm_sortBy (le : α → α → Bool) :
    ∀ l : List α, List.Perm (sortBy le l) l := by
  intro l
  induction l with
  | nil => exact List.Perm.refl _
  | cons x xs ih =>
      unfold sortBy
      exact (perm_orderedInsertBy le x (sortBy le xs)).trans (List.Perm.cons x ih)

theorem pairwise_orderedInsertBy {R : α → α → Prop} (le : α → α → Bool)
    (htrans : ∀ a b c, R a b → R b c → R a c)
    (h1 : ∀ a b, le a b = true → R a b)
    (h2 : ∀ a b, le a b = false → R b a) (x : α) :
    ∀ l : List α, l.Pairwise R → (orderedInsertBy le x l).Pairwise R := by
  intro l
  induction l with
  | nil =>
      intro _
      simp [orderedInsertBy]
  | cons y ys ih =>
      intro hl
      rw [List.pairwise_cons] at hl
      obtain ⟨hy, hys⟩ := hl
      unfold orderedInsertBy
      by_cases h : le x y = true
      · rw [if_pos h]
        refine List.Pairwise.cons ?_ (List.Pairwise.cons hy hys)
        intro z hz
        rcases List.mem_cons.mp hz with heq | hz'
        · rw [heq]
          exact h1 x y h
        · exact htrans x y z (h1 x y h) (hy z hz')
      · rw [if_neg h]
        refine List.Pairwise.cons ?_ (ih hys)
        intro z hz
        have hz2 : z ∈ x :: ys :=
          (perm_orderedInsertBy le x ys).mem_iff.mp hz
        rcases List.mem_cons.mp hz2 with heq | hz'
        · rw [heq]
          exact h2 x y (by simp [h])
        · exact hy z hz'

theorem pairwise_sortBy {R : α → α → Prop} (le : α → α → Bool)
    (htrans : ∀ a b c, R a b → R b c → R a c)
    (h1 : ∀ a b, le a b = true → R a b)
    (h2 : ∀ a b, le a b = false → R b a) :
    ∀ l : List α, (sortBy le l).Pairwise R := by
  intro l
  induction l with
  | nil => simp [sortBy]
  | cons x xs ih =>
      unfold sortBy
      exact pairwise_orderedInsertBy le htrans h1 h2 x (sortBy le xs) ih

theorem dateLe_trans (a b c : PyDate) (h1 : dateLe a b) (h2 : dateLe b c) :
    dateLe a c := by
  unfold dateLe at *
  omega

theorem dateLtB_false_iff (a b : PyDate) :
    dateLtB a b = false ↔ dateLe b a := by
  unfold dateLtB dateLe
  split_ifs with h1 h2 h3 h4 <;> simp <;> omega

theorem entryLtB_false_date {a b : PyDate × List Char × List Char}
    (h : news_generator.entryLtB a b = false) : dateLe b.1 a.1 := by
  unfold news_generator.entryLtB at h
  by_cases h1 : dateLtB a.1 b.1 = true
  · rw [if_pos h1] at h
    cases h
  · exact (dateLtB_false_iff a.1 b.1).mp (by simp [h1])

theorem dateLe_total (a b : PyDate) : dateLe a b ∨ dateLe b a := by
  unfold dateLe
  omega

theorem dateLtB_true_not_le {a b : PyDate} (h : dateLtB a b = true) :
    ¬ dateLe b a := by
  intro hle
  have h2 : dateLtB a b = false := (dateLtB_false_iff a b).mpr hle
  rw [h] at h2
  cases h2

theorem entryLtB_true_date {a b : PyDate × List Char × List Char}
    (h : news_generator.entryLtB a b = true) : dateLe a.1 b.1 := by
  unfold news_generator.entryLtB at h
  by_cases h1 : dateLtB a.1 b.1 = true
  · rcases dateLe_total a.1 b.1 with hle | hle
    · exact hle
    · exact absurd hle (dateLtB_true_not_le h1)
  · rw [if_neg h1] at h
    by_cases h2 : dateLtB b.1 a.1 = true
    · rw [if_pos h2] at h
      cases h
    · exact (dateLtB_false_iff b.1 a.1).mp (by simp [h2])

theorem rfindIdx_some_occ {sub s : List Char} :
    ∀ {n : Nat}, rfindIdx sub s = some n → OccAt sub s n := by
  induction s with
  | nil =>
      intro n h
      unfold rfindIdx at h
      by_cases hp : sub.isPrefixOf ([] : List Char) = true
      · rw [hp] at h
        simp at h
        subst h
        exact (occAt_zero_iff sub []).mpr hp
      · simp [hp] at h
  | cons c t ih =>
      intro n h
      unfold rfindIdx at h
      cases hr : (rfindIdx sub t).map (· + 1) with
      | some k =>
          rw [hr] at h
          simp at hr
          obtain ⟨j, hj, hk⟩ := hr
          cases h
          subst hk
          exact (occAt_cons_succ sub c t j).mpr (ih hj)
      | none =>
          rw [hr] at h
          by_cases hp : sub.isPrefixOf (c :: t) = true
          · rw [hp] at h
            simp at h
            subst h
            exact (occAt_zero_iff sub (c :: t)).mpr hp
          · simp [hp] at h

theorem gt_after_marker {s : List Char} {start : Nat}
    (h : OccAt gaming_generator.marker s start) :
    pyFindN s gtTok start = some (start + 17) := by
  rw [pyFindN_some_iff]
  refine ⟨by omega, ?_, ?_⟩
  · have h17 : OccAt gtTok gaming_generator.marker 17 := by decide
    exact (occAt_within_iff h gtTok (by decide)).mpr h17
  · intro m hm1 hm2
    have hj : ∃ j, m = start + j ∧ j < 17 := ⟨m - start, by omega, by omega⟩
    obtain ⟨j, rfl, hjlt⟩ := hj
    have hjb : j + gtTok.length ≤ gaming_generator.marker.length := by
      have e1 : gtTok.length = 1 := rfl
      have e2 : gaming_generator.marker.length = 18 := rfl
      omega
    rw [occAt_within_iff h gtTok hjb]
    have hall : ∀ j, j < 17 → ¬ OccAt gtTok gaming_generator.marker j := by
      decide
    exact hall j hjlt

theorem update_gaming_structure {d s h : List Char} {start e : Nat}
    (hm : pyFindN h gaming_generator.marker 0 = some start)
    (he : pyFindN h tagDivClose (start + 17) = some e) :
    gaming_generator.update_gaming_page d s h =
      Except.ok (h.take (start + 18) ++ gaming_generator.inner_html d s ++
        h.drop e) := by
  have hocc : OccAt gaming_generator.marker h start :=
    (pyFindN_some_iff.mp hm).2.1
  have hlen : start + gaming_generator.marker.length ≤ h.length :=
    occAt_length (by decide) hocc
  have hlen18 : start + 18 ≤ h.length := by
    have e2 : gaming_generator.marker.length = 18 := rfl
    omega
  have heocc : OccAt tagDivClose h e := (pyFindN_some_iff.mp he).2.1
  have hege : start + 17 ≤ e := (pyFindN_some_iff.mp he).1
  have helen : e + tagDivClose.length ≤ h.length := occAt_length (by decide) heocc
  have hgt : pyFindN h gtTok start = some (start + 17) := gt_after_marker hocc
  unfold gaming_generator.update_gaming_page
  rw [hm]
  dsimp only
  have hstart_le : start ≤ h.length := by omega
  have hfind1 : pyFind h gtTok ((start : Nat) : Int) = ((start + 17 : Nat) : Int) :=
    pyFind_nat hstart_le hgt
  rw [hfind1]
  have hst17_le : start + 17 ≤ h.length := by omega
  have hfind2 : pyFind h tagDivClose ((start + 17 : Nat) : Int) = ((e : Nat) : Int) :=
    pyFind_nat hst17_le he
  rw [hfind2]
  have hcast : ((start + 17 : Nat) : Int) + 1 = ((start + 18 : Nat) : Int) := by
    push_cast
    omega
  rw [hcast, pySliceTo_nat, pySliceFrom_nat]

theorem gaming_idempotent_core {d s h : List Char} {start e : Nat}
    (hm : pyFindN h gaming_generator.marker 0 = some start)
    (he : pyFindN h tagDivClose (start + 17) = some e)
    (hni : containsSub tagDivClose (gaming_generator.inner_html d s) = false) :
    gaming_generator.update_gaming_page d s
        (h.take (start + 18) ++ gaming_generator.inner_html d s ++ h.drop e) =
      Except.ok (h.take (start + 18) ++ gaming_generator.inner_html d s ++
        h.drop e) := by
  have hocc : OccAt gaming_generator.marker h start :=
    (pyFindN_some_iff.mp hm).2.1
  have hmin : ∀ m, 0 ≤ m → m < start → ¬ OccAt gaming_generator.marker h m :=
    (pyFindN_some_iff.mp hm).2.2
  have hmlen : gaming_generator.marker.length = 18 := rfl
  have hclen : tagDivClose.length = 6 := rfl
  have hlen18 : start + 18 ≤ h.length := by
    have := occAt_length (by decide) hocc
    omega
  have heocc : OccAt tagDivClose h e := (pyFindN_some_iff.mp he).2.1
  have hege : start + 17 ≤ e := (pyFindN_some_iff.mp he).1
  have helen : e + 6 ≤ h.length := by
    have := occAt_length (by decide) heocc
    omega
  set B := h.take (start + 18) with hB
  set I := gaming_generator.inner_html d s with hI
  set A := h.drop e with hA
  have hBlen : B.length = start + 18 := by
    rw [hB, List.length_take]
    omega
  have hPlen : (B ++ I).length = start + 18 + I.length := by
    rw [List.length_append, hBlen]
  have hAocc : OccAt tagDivClose A 0 := by
    rw [hA, occAt_drop_iff]
    have : e + 0 = e := by omega
    rw [this]
    exact heocc
  -- the marker is still first found at `start` in the mutated page
  have hOccB : OccAt gaming_generator.marker B start := by
    rw [hB, occAt_take_iff (by omega)]
    exact hocc
  have occD : OccAt gaming_generator.marker (B ++ I ++ A) start := by
    exact (occAt_append_left_iff (by rw [List.length_append, hBlen]; omega)).mpr
      ((occAt_append_left_iff (by rw [hBlen]; omega)).mpr hOccB)
  have hm2 : pyFindN (B ++ I ++ A) gaming_generator.marker 0 = some start := by
    rw [pyFindN_some_iff]
    refine ⟨by omega, occD, ?_⟩
    intro m _ hmlt hOccD
    have h1 : OccAt gaming_generator.marker (B ++ I) m :=
      (occAt_append_left_iff (by rw [List.length_append, hBlen]; omega)).mp hOccD
    have h2 : OccAt gaming_generator.marker B m :=
      (occAt_append_left_iff (by rw [hBlen]; omega)).mp h1
    rw [hB, occAt_take_iff (by omega)] at h2
    exact hmin m (by omega) hmlt h2
  -- the closing tag is first found at the start of `A`
  have hAltocc : OccAt ("<".data) A 0 := by
    have h1 := occAt_sub_take hAocc 1 (by decide)
    have h2 : tagDivClose.take 1 = "<".data := rfl
    rw [h2] at h1
    exact h1
  have hQocc : OccAt tagDivClose (B ++ I ++ A) (start + 18 + I.length) := by
    have h1 := (occAt_append_right_iff tagDivClose (B ++ I) A 0).mpr hAocc
    rw [hPlen] at h1
    have h2 : start + 18 + I.length + 0 = start + 18 + I.length := by omega
    rw [h2] at h1
    exact h1
  have hQlt : OccAt ("<".data) (B ++ I ++ A) (start + 18 + I.length) := by
    have h1 := (occAt_append_right_iff ("<".data) (B ++ I) A 0).mpr hAltocc
    rw [hPlen] at h1
    have h2 : start + 18 + I.length + 0 = start + 18 + I.length := by omega
    rw [h2] at h1
    exact h1
  have he2 : pyFindN (B ++ I ++ A) tagDivClose (start + 17) =
      some (start + 18 + I.length) := by
    rw [pyFindN_some_iff]
    refine ⟨by omega, hQocc, ?_⟩
    intro m hm17 hmq hOccD
    by_cases hcase1 : m = start + 17
    · subst hcase1
      have h1 := occAt_sub_take hOccD 1 (by decide)
      have h2 : tagDivClose.take 1 = "<".data := rfl
      rw [h2] at h1
      have h3 := (occAt_within_iff occD ("<".data) (by decide)).mp h1
      have h4 : ¬ OccAt ("<".data) gaming_generator.marker 17 := by decide
      exact h4 h3
    · have hm18 : start + 18 ≤ m := by omega
      by_cases hcase2 : m + 6 ≤ start + 18 + I.length
      · have h1 : OccAt tagDivClose (B ++ I) m :=
          (occAt_append_left_iff (by rw [hPlen]; omega)).mp hOccD
        have hm' : m = B.length + (m - (start + 18)) := by rw [hBlen]; omega
        rw [hm'] at h1
        have h2 := (occAt_append_right_iff tagDivClose B I _).mp h1
        exact containsSub_false hni _ h2
      · have hj : ∃ j, start + 18 + I.length = m + j ∧ 1 ≤ j ∧ j ≤ 5 :=
          ⟨start + 18 + I.length - m, by omega, by omega, by omega⟩
        obtain ⟨j, hjq, hj1, hj5⟩ := hj
        have hjb : j + ("<".data).length ≤ tagDivClose.length := by
          have : ("<".data).length = 1 := rfl
          omega
        have h1 := (occAt_within_iff hOccD ("<".data) hjb).mpr
        have h2 : OccAt ("<".data) (B ++ I ++ A) (m + j) := by
          rw [← hjq]
          exact hQlt
        have h3 := (occAt_within_iff hOccD ("<".data) hjb).mp h2
        have h4 : ∀ j, 1 ≤ j → j ≤ 5 → ¬ OccAt ("<".data) tagDivClose j := by
          decide
        exact h4 j hj1 hj5 h3
  -- run the mutation again and put the pieces back together
  have hres := update_gaming_structure (d := d) (s := s) hm2 he2
  rw [hres]
  have hTake : (B ++ I ++ A).take (start + 18) = B := by
    rw [List.append_assoc, ← hBlen]
    simp
  have hDrop : (B ++ I ++ A).drop (start + 18 + I.length) = A := by
    rw [← hPlen]
    simp
  rw [hTake, hDrop]

theorem update_index_structure {ts a h : List Char} {pos start ste e : Nat}
    (h1 : pyFindN h news_generator.marker_id 0 = some pos)
    (h2 : pyRfindN h tagDivOpen pos = some start)
    (h3 : pyFindN h gtTok start = some ste)
    (h4 : pyFindN h tagDivClose ste = some e) :
    news_generator.update_index_html ts a h =
      Except.ok (h.take (ste + 1) ++ news_generator.inner_html ts a ++
        h.drop e) := by
  unfold news_generator.update_index_html
  rw [h1]
  dsimp only
  rw [h2]
  dsimp only
  rw [h3]
  dsimp only
  rw [h4]

theorem update_tech_structure {d s h : List Char} {st2 ste2 e2 : Nat}
    (hm : pyFindN h tech_generator.marker 0 = some st2)
    (hg : pyFindN h gtTok st2 = some ste2)
    (he : pyFindN h tagDivClose ste2 = some e2) :
    tech_generator.update_tech_page d s h =
      Except.ok (h.take (ste2 + 1) ++ tech_generator.inner_html d s ++
        h.drop e2) := by
  have hocc : OccAt tech_generator.marker h st2 := (pyFindN_some_iff.mp hm).2.1
  have hst2len : st2 ≤ h.length := by
    have := occAt_length (by decide) hocc
    have e1 : tech_generator.marker.length = 18 := rfl
    omega
  have hgocc : OccAt gtTok h ste2 := (pyFindN_some_iff.mp hg).2.1
  have hste2len : ste2 + 1 ≤ h.length := by
    have := occAt_length (by decide) hgocc
    have e1 : gtTok.length = 1 := rfl
    omega
  have heocc : OccAt tagDivClose h e2 := (pyFindN_some_iff.mp he).2.1
  have he2len : e2 ≤ h.length := by
    have := occAt_length (by decide) heocc
    omega
  unfold tech_generator.update_tech_page
  rw [hm]
  dsimp only
  rw [pyFind_nat hst2len hg]
  rw [pyFind_nat (by omega) he]
  have hcast : ((ste2 : Nat) : Int) + 1 = ((ste2 + 1 : Nat) : Int) := by
    push_cast
    omega
  rw [hcast, pySliceTo_nat, pySliceFrom_nat]

/-- C1 (counterexample): on a document with no `id="article"` anywhere,
`news_generator.update_index_html` does not fail; it writes a modified
document (the freshly injected article block before `</body>`), so the
claim that all three mutation operations fail with a configuration
error on a missing anchor is false for the news vertical. -/
theorem missing_anchor_news_fallback :
    containsSub news_generator.marker_id plain_page = false ∧
      news_generator.update_index_html ("TS".data) ("<p>A</p>".data)
          plain_page =
        Except.ok
          ("<html><body>hi\n<div id=\"article\">\n  <p class=\"article-date\">Updated: <span id=\"updated-date\" data-ts=\"TS\"></span></p>\n  <p>A</p>\n</div>\n</body></html>".data) ∧
      ¬ news_generator.update_index_html ("TS".data) ("<p>A</p>".data)
          plain_page =
        Except.ok plain_page := by
  refine ⟨by decide, by decide, by decide⟩

/-- C1 (amended): on a target document whose text contains no
occurrence of `id="article"`, the tech and gaming mutation operations
fail with their configuration error (raised before any write, so the
prior content stays on disk), while the news operation instead
succeeds, returning the document grown by exactly the freshly injected
article block. -/
theorem missing_anchor_behavior (ts a d s h : List Char)
    (hno : containsSub news_generator.marker_id h = false) :
    tech_generator.update_tech_page d s h =
        Except.error ("tech.html missing <div id=article>") ∧
      gaming_generator.update_gaming_page d s h =
        Except.error ("gaming.html missing <div id=article>") ∧
      (news_generator.update_index_html ts a h).isOk = true ∧
      (∀ r, news_generator.update_index_html ts a h = Except.ok r →
        r.length = h.length + (news_generator.article_block ts a).length) := by
  have hnom : ∀ m, ¬ OccAt news_generator.marker_id h m := containsSub_false hno
  have htech : pyFindN h tech_generator.marker 0 = none := by
    rw [pyFindN_none_iff]
    intro m _ hocc
    have h5 : OccAt news_generator.marker_id tech_generator.marker 5 := by
      decide
    have hb : 5 + news_generator.marker_id.length ≤
        tech_generator.marker.length := by decide
    exact hnom (m + 5) ((occAt_within_iff hocc news_generator.marker_id hb).mpr h5)
  have hgam : pyFindN h gaming_generator.marker 0 = none := by
    rw [pyFindN_none_iff]
    intro m _ hocc
    have h5 : OccAt news_generator.marker_id gaming_generator.marker 5 := by
      decide
    have hb : 5 + news_generator.marker_id.length ≤
        gaming_generator.marker.length := by decide
    exact hnom (m + 5) ((occAt_within_iff hocc news_generator.marker_id hb).mpr h5)
  have hnews : pyFindN h news_generator.marker_id 0 = none := by
    rw [pyFindN_none_iff]
    intro m _
    exact hnom m
  refine ⟨?_, ?_, ?_, ?_⟩
  · unfold tech_generator.update_tech_page
    rw [htech]
  · unfold gaming_generator.update_gaming_page
    rw [hgam]
  · unfold news_generator.update_index_html
    rw [hnews]
    dsimp only
    cases hrb : rfindIdx bodyCloseTok (toLowerL h) with
    | some bc => rfl
    | none => rfl
  · intro r hr
    unfold news_generator.update_index_html at hr
    rw [hnews] at hr
    dsimp only at hr
    cases hrb : rfindIdx bodyCloseTok (toLowerL h) with
    | some bc =>
        rw [hrb] at hr
        have hocc := rfindIdx_some_occ hrb
        have hbc : bc + bodyCloseTok.length ≤ (toLowerL h).length :=
          occAt_length (by decide) hocc
        have hbc2 : bc ≤ h.length := by
          unfold toLowerL at hbc
          rw [List.length_map] at hbc
          omega
        cases hr
        simp [List.length_append, List.length_take, List.length_drop]
        omega
    | none =>
        rw [hrb] at hr
        cases hr
        simp [List.length_append]

/-- C1 (witness): the amended behavior checked on a concrete
anchor-free page. -/
theorem missing_anchor_behavior_witness :
    tech_generator.update_tech_page ("D".data) ("<p>B</p>".data) plain_page =
        Except.error ("tech.html missing <div id=article>") ∧
      gaming_generator.update_gaming_page ("D".data) ("<p>B</p>".data)
          plain_page =
        Except.error ("gaming.html missing <div id=article>") ∧
      (news_generator.update_index_html ("TS".data) ("<p>A</p>".data)
          plain_page).isOk = true :=
  ⟨(missing_anchor_behavior ("TS".data) ("<p>A</p>".data) ("D".data)
      ("<p>B</p>".data) plain_page (by decide)).1,
   (missing_anchor_behavior ("TS".data) ("<p>A</p>".data) ("D".data)
      ("<p>B</p>".data) plain_page (by decide)).2.1,
   (missing_anchor_behavior ("TS".data) ("<p>A</p>".data) ("D".data)
      ("<p>B</p>".data) plain_page (by decide)).2.2.1⟩

/-- C2 (counterexample): an unparseable, non-empty raw date is returned
unchanged by `format_pub_date`, not replaced by the documented sentinel
`"Unknown date"`. -/
theorem date_parse_failure_returns_raw :
    news_generator.format_pub_date ("yesterday".data) = "yesterday".data ∧
      ¬ news_generator.format_pub_date ("yesterday".data) =
        "Unknown date".data ∧
      tech_generator.format_date ("yesterday".data) = "yesterday".data ∧
      ¬ tech_generator.format_date ("yesterday".data) = "Unknown".data := by
  refine ⟨by decide, by decide, by decide, by decide⟩

/-- C2 (amended): the sentinel is produced only for an empty raw date;
on a parse failure the raw string is passed through unchanged; on a
successful parse the date component is rendered as `YYYY-MM-DD`, as on
the concrete well-formed RFC-2822 date checked last. -/
theorem date_fallback_behavior :
    news_generator.format_pub_date [] = "Unknown date".data ∧
      tech_generator.format_date [] = "Unknown".data ∧
      (∀ raw : List Char, raw ≠ [] → parsedate_to_datetime raw = none →
        news_generator.format_pub_date raw = raw) ∧
      (∀ raw : List Char, raw ≠ [] → parsedate_to_datetime raw = none →
        tech_generator.format_date raw = raw) ∧
      (∀ (raw : List Char) (dt : PyDate), raw ≠ [] →
        parsedate_to_datetime raw = some dt →
        news_generator.format_pub_date raw = strftime_Ymd dt) ∧
      news_generator.format_pub_date
          ("Mon, 01 Jan 2024 12:00:00 +0000".data) = "2024-01-01".data := by
  refine ⟨by decide, by decide, ?_, ?_, ?_, by decide⟩
  · intro raw hne hp
    have hie : raw.isEmpty = false := by
      cases raw
      · exact absurd rfl hne
      · rfl
    unfold news_generator.format_pub_date
    rw [hie, hp]
    rfl
  · intro raw hne hp
    have hie : raw.isEmpty = false := by
      cases raw
      · exact absurd rfl hne
      · rfl
    unfold tech_generator.format_date
    rw [hie, hp]
    rfl
  · intro raw dt hne hp
    have hie : raw.isEmpty = false := by
      cases raw
      · exact absurd rfl hne
      · rfl
    unfold news_generator.format_pub_date
    rw [hie, hp]
    rfl

/-- C2 (witness): the pass-through branch exercised on a concrete
unparseable date. -/
theorem date_fallback_behavior_witness :
    news_generator.format_pub_date ("not a date".data) = "not a date".data ∧
      tech_generator.format_date ("not a date".data) = "not a date".data :=
  ⟨date_fallback_behavior.2.2.1 ("not a date".data) (by decide) (by decide),
   date_fallback_behavior.2.2.2.1 ("not a date".data) (by decide) (by decide)⟩

/-- C3: the de-duplication step keeps, for every title, exactly the
first item carrying that title (the filtered survivors for a title are
precisely the first occurrence found in fetch order), and the concrete
scenario with titles A, B, A and a maximum of 2 yields exactly the
first A and B, in order. -/
theorem dedup_first_occurrence :
    (∀ (items : List Item) (t : List Char),
        (dedupByTitle items []).filter (fun it => it.title == t) =
          ((items.find? fun it => it.title == t).toList)) ∧
      (dedupByTitle
            [⟨"A".data, "a1".data, "l1".data, "d1".data⟩,
             ⟨"B".data, "b".data, "lb".data, "db".data⟩,
             ⟨"A".data, "a2".data, "l2".data, "d2".data⟩] []).take 2 =
        [⟨"A".data, "a1".data, "l1".data, "d1".data⟩,
         ⟨"B".data, "b".data, "lb".data, "db".data⟩] := by
  constructor
  · intro items t
    rw [dedup_filter t items []]
    simp
  · decide

/-- C4: the normalization output of `fetch_rss_items` in each vertical
is at most `MAX_ARTICLES` long and is a prefix of the de-duplicated
sequence, and `MAX_ARTICLES` is configured as 10. -/
theorem truncation_prefix_bound :
    (∀ raw : List Item,
        (news_generator.fetch_rss_items raw).length ≤ MAX_ARTICLES ∧
          news_generator.fetch_rss_items raw <+: dedupByTitle raw []) ∧
      (∀ raw : List Item,
        (tech_generator.fetch_rss_items raw).length ≤ MAX_ARTICLES ∧
          tech_generator.fetch_rss_items raw <+: dedupByTitle raw []) ∧
      MAX_ARTICLES = 10 := by
  refine ⟨?_, ?_, rfl⟩ <;> intro raw <;>
    exact ⟨List.length_take_le _ _,
      ⟨(dedupByTitle raw []).drop MAX_ARTICLES, List.take_append_drop _ _⟩⟩

/-- C5: when the article anchor, its opening tag, the closing `>` of that
tag and the closing `</div>` of the region are all located, both the news and
the tech mutation succeed and the produced document keeps every byte up
to and including the closing `>` of the start tag at the head and every
byte from the closing tag of the region onward at the tail; only the inner
content between them changes. -/
theorem region_replacement_preservation
    (ts a d s h : List Char) (pos start ste e st2 ste2 e2 : Nat)
    (h1 : pyFindN h news_generator.marker_id 0 = some pos)
    (h2 : pyRfindN h tagDivOpen pos = some start)
    (h3 : pyFindN h gtTok start = some ste)
    (h4 : pyFindN h tagDivClose ste = some e)
    (h5 : pyFindN h tech_generator.marker 0 = some st2)
    (h6 : pyFindN h gtTok st2 = some ste2)
    (h7 : pyFindN h tagDivClose ste2 = some e2) :
    (news_generator.update_index_html ts a h =
        Except.ok (h.take (ste + 1) ++ news_generator.inner_html ts a ++
          h.drop e) ∧
      h.take (ste + 1) <+:
        h.take (ste + 1) ++ news_generator.inner_html ts a ++ h.drop e ∧
      h.drop e <:+
        h.take (ste + 1) ++ news_generator.inner_html ts a ++ h.drop e) ∧
    (tech_generator.update_tech_page d s h =
        Except.ok (h.take (ste2 + 1) ++ tech_generator.inner_html d s ++
          h.drop e2) ∧
      h.take (ste2 + 1) <+:
        h.take (ste2 + 1) ++ tech_generator.inner_html d s ++ h.drop e2 ∧
      h.drop e2 <:+
        h.take (ste2 + 1) ++ tech_generator.inner_html d s ++ h.drop e2) := by
  refine ⟨⟨update_index_structure h1 h2 h3 h4, ?_, ?_⟩,
    ⟨update_tech_structure h5 h6 h7, ?_, ?_⟩⟩
  · exact ⟨news_generator.inner_html ts a ++ h.drop e,
      (List.append_assoc _ _ _).symm⟩
  · exact ⟨h.take (ste + 1) ++ news_generator.inner_html ts a, rfl⟩
  · exact ⟨tech_generator.inner_html d s ++ h.drop e2,
      (List.append_assoc _ _ _).symm⟩
  · exact ⟨h.take (ste2 + 1) ++ tech_generator.inner_html d s, rfl⟩

/-- C5 (witness): the preservation property checked on a concrete page
whose anchors sit at positions 11 (id marker), 6 (opening tag), 23
(closing `>`) and 27 (closing tag). -/
theorem region_replacement_preservation_witness :
    (news_generator.update_index_html ("TS".data) ("<p>A</p>".data)
          sample_page =
        Except.ok (sample_page.take (23 + 1) ++
          news_generator.inner_html ("TS".data) ("<p>A</p>".data) ++
          sample_page.drop 27) ∧
      sample_page.take (23 + 1) <+:
        sample_page.take (23 + 1) ++
          news_generator.inner_html ("TS".data) ("<p>A</p>".data) ++
          sample_page.drop 27 ∧
      sample_page.drop 27 <:+
        sample_page.take (23 + 1) ++
          news_generator.inner_html ("TS".data) ("<p>A</p>".data) ++
          sample_page.drop 27) ∧
    (tech_generator.update_tech_page ("D".data) ("<p>B</p>".data)
          sample_page =
        Except.ok (sample_page.take (23 + 1) ++
          tech_generator.inner_html ("D".data) ("<p>B</p>".data) ++
          sample_page.drop 27) ∧
      sample_page.take (23 + 1) <+:
        sample_page.take (23 + 1) ++
          tech_generator.inner_html ("D".data) ("<p>B</p>".data) ++
          sample_page.drop 27 ∧
      sample_page.drop 27 <:+
        sample_page.take (23 + 1) ++
          tech_generator.inner_html ("D".data) ("<p>B</p>".data) ++
          sample_page.drop 27) :=
  region_replacement_preservation ("TS".data) ("<p>A</p>".data) ("D".data)
    ("<p>B</p>".data) sample_page 11 6 23 27 6 23 27 (by decide) (by decide)
    (by decide) (by decide) (by decide) (by decide) (by decide)

/-- C6 (counterexample): with new inner content that itself contains
the closing tag `</div>`, applying the gaming page mutation twice with
identical arguments does not reproduce the once-mutated document: the
second application cuts the region at the closing tag inside the
injected content and duplicates the remainder. -/
theorem region_replacement_not_idempotent :
    gaming_generator.update_gaming_page gaming_ce_date gaming_ce_content
        gaming_ce_page = Except.ok gaming_ce_once ∧
      ¬ gaming_generator.update_gaming_page gaming_ce_date gaming_ce_content
          gaming_ce_once = Except.ok gaming_ce_once := by
  refine ⟨by decide, by decide⟩

/-- C6 (amended): provided the injected inner content (timestamp
paragraph plus new article content) contains no occurrence of the
closing tag `</div>`, mutating the gaming page twice with the same
content and display date produces exactly the once-mutated document. -/
theorem region_replacement_idempotent_no_closing_tag
    (d s h : List Char) (start e : Nat)
    (hm : pyFindN h gaming_generator.marker 0 = some start)
    (he : pyFindN h tagDivClose (start + 17) = some e)
    (hni : containsSub tagDivClose (gaming_generator.inner_html d s) = false) :
    gaming_generator.update_gaming_page d s h =
        Except.ok (h.take (start + 18) ++ gaming_generator.inner_html d s ++
          h.drop e) ∧
      gaming_generator.update_gaming_page d s
          (h.take (start + 18) ++ gaming_generator.inner_html d s ++
            h.drop e) =
        Except.ok (h.take (start + 18) ++ gaming_generator.inner_html d s ++
          h.drop e) :=
  ⟨update_gaming_structure hm he, gaming_idempotent_core hm he hni⟩

/-- C6 (witness): idempotence checked on a concrete page (marker at 0,
closing tag at 21) with closing-tag-free content. -/
theorem region_replacement_idempotent_witness :
    gaming_generator.update_gaming_page ("June 01, 2025".data)
          ("<p>x</p>".data) gaming_page =
        Except.ok (gaming_page.take (0 + 18) ++
          gaming_generator.inner_html ("June 01, 2025".data)
            ("<p>x</p>".data) ++ gaming_page.drop 21) ∧
      gaming_generator.update_gaming_page ("June 01, 2025".data)
          ("<p>x</p>".data)
          (gaming_page.take (0 + 18) ++
            gaming_generator.inner_html ("June 01, 2025".data)
              ("<p>x</p>".data) ++ gaming_page.drop 21) =
        Except.ok (gaming_page.take (0 + 18) ++
          gaming_generator.inner_html ("June 01, 2025".data)
            ("<p>x</p>".data) ++ gaming_page.drop 21) :=
  region_replacement_idempotent_no_closing_tag ("June 01, 2025".data)
    ("<p>x</p>".data) gaming_page 0 21 (by decide) (by decide) (by decide)

/-- C7 (counterexample): in the gaming converter (the one with the
bold-pair heading rule) the block `"### Economy"` does not become a
heading at all: the keyword relevance filter drops it, yielding empty
output. -/
theorem heading_economy_filtered_out :
    gaming_generator.convert_summary_to_html ("### Economy".data) = [] ∧
      ¬ gaming_generator.convert_summary_to_html ("### Economy".data) =
        "<h2>Economy</h2>\n".data := by
  refine ⟨by decide, by decide⟩

/-- C7 (amended): heading/paragraph classification as claimed holds in
the gaming converter only for blocks passing the keyword filter
(`"### Game Economy"` and `"**Game Economy**"` become the heading
`Game Economy`, `"Prices rose."` a verbatim paragraph), while the tech
converter turns `"### Economy"` into a heading and `"Prices rose."`
into a paragraph but has no bold-pair rule, leaving `"**Economy**"` a
paragraph. -/
theorem block_classification_with_filter :
    gaming_generator.convert_summary_to_html ("### Game Economy".data) =
        "<h2>Game Economy</h2>\n".data ∧
      gaming_generator.convert_summary_to_html ("**Game Economy**".data) =
        "<h2>Game Economy</h2>\n".data ∧
      gaming_generator.convert_summary_to_html ("Prices rose.".data) =
        "<p>Prices rose.</p>\n".data ∧
      tech_generator.convert_summary_to_html ("### Economy".data) =
        "<h2>Economy</h2>\n".data ∧
      tech_generator.convert_summary_to_html ("**Economy**".data) =
        "<p>**Economy**</p>\n".data ∧
      tech_generator.convert_summary_to_html ("Prices rose.".data) =
        "<p>Prices rose.</p>\n".data := by
  refine ⟨by decide, by decide, by decide, by decide, by decide, by decide⟩

/-- C8 (counterexample): the gaming archive index does not skip a
filename whose stem fails to parse as a date slug: `notadate.html`
still gets a link (with the raw slug as display text), refuting the
claim for the gaming vertical it cites. -/
theorem gaming_archive_keeps_unparseable :
    strptime_Ymd ("notadate".data) = none ∧
      containsSub ("gaming_archives/notadate.html".data)
        (gaming_generator.build_gaming_archive_list_html
          (some ["notadate.html".data, "2024-01-02.html".data])) = true := by
  refine ⟨by decide, by decide⟩

/-- C8 (amended): the news archive index is a permutation of the
one-entry-per-parseable-filename list (non-conforming names skipped),
sorted descending by date, and the three-file example renders newest
first; the gaming index instead keeps every `.html` filename, using the
raw slug as display when it does not parse, sorted descending by slug
string. -/
theorem archive_index_ordering :
    (∀ names : List (List Char),
        List.Perm (news_generator.sorted_archive_entries names)
          (news_generator.build_archive_entries names)) ∧
      (∀ names : List (List Char),
        (news_generator.sorted_archive_entries names).Pairwise
          (fun a b => dateLe b.1 a.1)) ∧
      news_generator.build_archive_list_items
          (some ["2024-01-02.html".data, "2024-01-10.html".data,
            "2024-01-01.html".data]) =
        ["<li><a href=\"archives/2024-01-10.html\">January 10, 2024</a></li>".data,
         "<li><a href=\"archives/2024-01-02.html\">January 02, 2024</a></li>".data,
         "<li><a href=\"archives/2024-01-01.html\">January 01, 2024</a></li>".data] ∧
      gaming_generator.build_gaming_archive_list_html
          (some ["notadate.html".data, "2024-01-02.html".data]) =
        ("<li><a href=\"gaming_archives/notadate.html\">notadate</a></li>\n<li><a href=\"gaming_archives/2024-01-02.html\">January 02, 2024</a></li>".data) := by
  refine ⟨?_, ?_, by decide, by decide⟩
  · intro names
    exact perm_sortBy _ _
  · intro names
    refine pairwise_sortBy _ ?_ ?_ ?_ _
    · intro x y z hxy hyz
      exact dateLe_trans z.1 y.1 x.1 hyz hxy
    · intro x y hle
      refine entryLtB_false_date ?_
      cases hx : news_generator.entryLtB x y
      · rfl
      · rw [hx] at hle
        cases hle
    · intro x y hle
      refine entryLtB_true_date ?_
      cases hx : news_generator.entryLtB x y
      · rw [hx] at hle
        cases hle
      · rfl

/-- C9: a tech page whose article region has no closing `</div>` after
the start anchor is not treated as fatal: `find` returns `-1`, the
Python slice with index -1 keeps only the final character of the document, and
the function happily returns (and would write) the truncated document
below, losing everything after the region. -/
theorem tech_missing_end_anchor_truncates :
    pyFindN tech_bad_page tagDivClose 23 = none ∧
      tech_generator.update_tech_page ("D".data) ("<p>B</p>".data)
          tech_bad_page =
        Except.ok
          ("<html><div id=\"article\">\n<p class=\"article-date\">Updated: D</p>\n<p>B</p>\n>".data) := by
  refine ⟨by decide, by decide⟩

set_option maxRecDepth 8000 in
/-- C10: with no fetched items the tech and gaming mains return without
touching any page, while the news main publishes the literal
fetch-failure placeholder into the article region (writing no archive
page) and still refreshes the archive list, as computed on a concrete
index page. -/
theorem empty_fetch_behavior :
    (∀ summary today h : List Char,
        tech_generator.main [] summary today h = none) ∧
      (∀ (summary display h : List Char) (dir : Option (List (List Char))),
        gaming_generator.main [] summary display h dir = none) ∧
      (news_generator.main ("TS".data) (some sample_archive_names) []
          ("ignored".data) sample_index).1 = none ∧
      (news_generator.main ("TS".data) (some sample_archive_names) []
          ("ignored".data) sample_index).2 = Except.ok sample_index_out ∧
      containsSub ("couldn\x27t fetch any news".data) sample_index_out =
        true ∧
      containsSub
          ("<li><a href=\"archives/2024-01-01.html\">January 01, 2024</a></li>".data)
          sample_index_out = true := by
  refine ⟨?_, ?_, rfl, by decide, by decide, by decide⟩
  · intro summary today h
    rfl
  · intro summary display h dir
    rfl
